import Mathlib

/-!
# Verification of the time-trace event pipeline

A shallow embedding of the event-capture and work-session derivation pipeline
of the time-trace backend, together with theorems settling the specified
properties of the session calculator, the event filter and the bounded event
queue.

Conventions of the embedding:
* timestamps are integers counting seconds (Python `datetime` values enter the
  computations only through `total_seconds()` of differences);
* Python `float` arithmetic on minute values is modelled exactly over `ℚ`;
* Python `int(x)` (truncation toward zero) on a nonnegative quantity is
  `Int.floor`, and on a possibly negative one is `qtrunc` below;
* mutation of the calculator object is explicit state passing: each handler
  returns the new state, and a session close additionally returns the
  summary value that the source hands to the persistence collaborator
  (`none` = persistence was not invoked).
-/

namespace TimeTrace

/-- `models.EventType` (models.py): the six system event kinds. -/
inductive EventType where
  | lock
  | unlock
  | shutdown
  | startup
  | suspend
  | resume
  deriving DecidableEq, Repr

/-- `models.EventSource` (models.py): origin tag of an envelope. -/
inductive EventSource where
  | system
  | manual
  | auto
  deriving DecidableEq, Repr

/-- `event_listener.SystemEventData`: the normalized event envelope.
`platform_info` and `raw_data` are environment metadata never read by the
filter, queue or calculator and are not modelled. -/
structure SystemEventData where
  event_type : EventType
  event_time : ℤ
  source : EventSource
  details : Option String
  deriving DecidableEq, Repr

/-- `work_time_calculator.WorkMode`: work-mode policy enum. -/
inductive WorkMode where
  | standard
  | flexible
  | shift
  | remote
  deriving DecidableEq, Repr

/-- `work_time_calculator.BreakType`: break kind enum. -/
inductive BreakType where
  | lunch
  | short
  | long
  | meeting
  | system
  deriving DecidableEq, Repr

/-- `work_time_calculator.BreakPeriod`: one break segment.  The free-text
`description` field is carried verbatim by the source and never read by any
computation, so it is omitted. -/
structure BreakPeriod where
  start_time : ℤ
  end_time : Option ℤ
  break_type : BreakType
  deriving DecidableEq, Repr

/-- `BreakPeriod.duration_minutes`: 0 while the break is open, otherwise
`int(total_seconds / 60)`; Python `int()` truncates toward zero, which is
`Int.tdiv`. -/
def BreakPeriod.duration_minutes (bp : BreakPeriod) : ℤ :=
  match bp.end_time with
  | none => 0
  | some e => Int.tdiv (e - bp.start_time) 60

/-- `BreakPeriod.is_active`: the break is still open. -/
def BreakPeriod.is_active (bp : BreakPeriod) : Bool :=
  bp.end_time.isNone

/-- `work_time_calculator.WorkTimeRule`: the configured calculation rules.
Only `standard_hours` and `max_daily_hours` are read by the derivation logic
(`_calculate_work_time` / `_apply_work_mode_rules`); the remaining
configuration fields of the Python class are never consumed by it. -/
structure WorkTimeRule where
  standard_hours : ℚ
  max_daily_hours : ℚ
  deriving DecidableEq, Repr

/-- The default rule values from `WorkTimeRule.__init__` (8h standard,
12h daily maximum), used when the configuration store supplies nothing. -/
def defaultRules : WorkTimeRule :=
  { standard_hours := 8, max_daily_hours := 12 }

/-- `work_time_calculator.EnhancedWorkTimeCalculator`: the session
calculator's mutable state.  The integer accumulator fields
`total_work_duration`, `total_break_duration` and `overtime_duration` of the
Python class are written only by `__init__`/`start_work_session` (always to 0)
and never read, so they are not modelled. -/
structure EnhancedWorkTimeCalculator where
  work_mode : WorkMode
  rules : WorkTimeRule
  session_start : Option ℤ
  session_end : Option ℤ
  last_activity : Option ℤ
  break_periods : List BreakPeriod
  current_break : Option BreakPeriod
  deriving DecidableEq, Repr

namespace EnhancedWorkTimeCalculator

/-- `EnhancedWorkTimeCalculator.__init__`: fresh calculator in the Idle
condition. -/
def init (mode : WorkMode) (rules : WorkTimeRule) : EnhancedWorkTimeCalculator :=
  { work_mode := mode
    rules := rules
    session_start := none
    session_end := none
    last_activity := none
    break_periods := []
    current_break := none }

/-- `start_work_session` (without the optional mode argument, which
`handle_system_event` never passes): records the new session start and resets
the break bookkeeping. -/
def start_work_session (s : EnhancedWorkTimeCalculator) (t : ℤ) :
    EnhancedWorkTimeCalculator :=
  { s with
    session_start := some t
    last_activity := some t
    session_end := none
    break_periods := []
    current_break := none }

/-- `end_break`: closes the tracked current break at `t`.  The Python method
mutates the aliased `BreakPeriod` object; since `start_break` appends the
tracked break to `break_periods` as its last element, that mutation is the
replacement of the last list element here. -/
def end_break (s : EnhancedWorkTimeCalculator) (t : ℤ) :
    EnhancedWorkTimeCalculator :=
  match s.current_break with
  | none => s
  | some bp =>
    if bp.is_active then
      { s with
        break_periods :=
          s.break_periods.dropLast ++ [{ bp with end_time := some t }]
        current_break := none
        last_activity := some t }
    else s

/-- `start_break`: force-closes an active current break, then opens a new one
at `t` and appends it. -/
def start_break (s : EnhancedWorkTimeCalculator) (t : ℤ) (ty : BreakType) :
    EnhancedWorkTimeCalculator :=
  let s1 :=
    match s.current_break with
    | some bp => if bp.is_active then s.end_break t else s
    | none => s
  let bp : BreakPeriod := { start_time := t, end_time := none, break_type := ty }
  { s1 with
    break_periods := s1.break_periods ++ [bp]
    current_break := some bp }

end EnhancedWorkTimeCalculator

/-- Truncation toward zero on `ℚ`: the meaning of Python `int()` applied to a
float. -/
def qtrunc (q : ℚ) : ℤ :=
  if q < 0 then ⌈q⌉ else ⌊q⌋

/-- Sum of `duration_minutes` over a break list
(`sum(bp.duration_minutes for bp in self.break_periods)`). -/
def totalBreakMinutes (l : List BreakPeriod) : ℤ :=
  (l.map BreakPeriod.duration_minutes).sum

/-- `(self.session_end - self.session_start).total_seconds() / 60` as an exact
rational. -/
def sessionMinutesQ (st en : ℤ) : ℚ :=
  ((en - st : ℤ) : ℚ) / 60

/-- `_apply_work_mode_rules`: standard mode caps the work minutes at
`max_daily_hours * 60`; the other modes pass the value through. -/
def applyWorkModeRules (mode : WorkMode) (rules : WorkTimeRule) (w : ℚ) : ℚ :=
  match mode with
  | .flexible => w
  | .shift => w
  | .remote => w
  | .standard => min w (rules.max_daily_hours * 60)

/-- `_calculate_efficiency`: 0 for a nonpositive session length, otherwise the
work/session ratio clamped from above at 1. -/
def calcEfficiency (work_minutes total_minutes : ℚ) : ℚ :=
  if total_minutes ≤ 0 then 0 else min 1 (work_minutes / total_minutes)

/-- `WorkTimeSummary`: the fields of the result dictionary built by
`_calculate_work_time` that carry the derived accounting (the redundant
hour-valued copies and the per-kind break breakdown are direct images of
these and are not repeated). -/
structure WorkSummary where
  session_start : ℤ
  session_end : ℤ
  total_session_minutes : ℤ
  total_break_minutes : ℤ
  work_minutes : ℤ
  overtime_minutes : ℤ
  efficiency : ℚ
  work_mode : WorkMode
  deriving DecidableEq, Repr

namespace EnhancedWorkTimeCalculator

/-- `_calculate_work_time`: derives the summary of a closed session; `none`
when no session bounds are recorded (the Python method returns `{}`). -/
def calculate_work_time (s : EnhancedWorkTimeCalculator) : Option WorkSummary :=
  match s.session_start, s.session_end with
  | some st, some en =>
    let total_session_minutes : ℚ := sessionMinutesQ st en
    let total_break_minutes : ℤ := totalBreakMinutes s.break_periods
    let actual_work_minutes : ℚ :=
      max 0 (total_session_minutes - (total_break_minutes : ℚ))
    let work_minutes : ℚ := applyWorkModeRules s.work_mode s.rules actual_work_minutes
    let standard_minutes : ℚ := s.rules.standard_hours * 60
    let overtime_minutes : ℚ := max 0 (work_minutes - standard_minutes)
    some
      { session_start := st
        session_end := en
        total_session_minutes := qtrunc total_session_minutes
        total_break_minutes := total_break_minutes
        work_minutes := qtrunc work_minutes
        overtime_minutes := qtrunc overtime_minutes
        efficiency := calcEfficiency work_minutes total_session_minutes
        work_mode := s.work_mode }
  | _, _ => none

/-- `end_work_session`: no-op on an unstarted session; otherwise records the
end time, auto-closes an active break, computes the summary and hands it to
the persistence collaborator (`_save_to_database`).  The second component is
the summary handed off, `none` when persistence is not invoked. -/
def end_work_session (s : EnhancedWorkTimeCalculator) (t : ℤ) :
    EnhancedWorkTimeCalculator × Option WorkSummary :=
  match s.session_start with
  | none => (s, none)
  | some _ =>
    let s1 := { s with session_end := some t }
    let s2 :=
      match s1.current_break with
      | some bp => if bp.is_active then s1.end_break t else s1
      | none => s1
    (s2, s2.calculate_work_time)

/-- `handle_system_event`: the event dispatch of the session calculator.  The
Python `if/elif` chain has branches only for STARTUP, SHUTDOWN, LOCK and
UNLOCK; SUSPEND and RESUME envelopes fall through it with no state change. -/
def handle_system_event (s : EnhancedWorkTimeCalculator) (ev : EventType)
    (t : ℤ) : EnhancedWorkTimeCalculator × Option WorkSummary :=
  match ev with
  | .startup => (s.start_work_session t, none)
  | .shutdown =>
    match s.session_start with
    | some _ => s.end_work_session t
    | none => (s, none)
  | .lock => (s.start_break t BreakType.system, none)
  | .unlock =>
    let s1 :=
      match s.current_break with
      | some bp => if bp.break_type = BreakType.system then s.end_break t else s
      | none => s
    ({ s1 with last_activity := some t }, none)
  | .suspend => (s, none)
  | .resume => (s, none)

end EnhancedWorkTimeCalculator

/-- Feeding a list of (event kind, event time) pairs through
`handle_system_event`, collecting every summary handed to persistence. -/
def runCalc (s : EnhancedWorkTimeCalculator) :
    List (EventType × ℤ) → EnhancedWorkTimeCalculator × List WorkSummary
  | [] => (s, [])
  | (ev, t) :: rest =>
    let p := s.handle_system_event ev t
    let r := runCalc p.1 rest
    (r.1, p.2.toList ++ r.2)

/-- `event_processor.WorkTimeCalculator`: the lock-duration based calculator
state.  `total_lock_duration` is in seconds. -/
structure WorkTimeCalculator where
  session_start : Option ℤ
  last_activity : Option ℤ
  lock_time : Option ℤ
  total_lock_duration : ℤ
  deriving DecidableEq, Repr

namespace WorkTimeCalculator

/-- `WorkTimeCalculator.__init__`. -/
def init : WorkTimeCalculator :=
  { session_start := none
    last_activity := none
    lock_time := none
    total_lock_duration := 0 }

/-- `handle_event` of `event_processor.WorkTimeCalculator`, composed of the
`_handle_startup` / `_handle_unlock` / `_handle_lock` / `_handle_shutdown`
helpers followed by the trailing `last_activity` update for STARTUP/UNLOCK.
`_handle_shutdown` saves the session record through the DAO (a persistence
effect outside the state) and `_reset_session`s; only the state evolution is
modelled here. -/
def handle_event (s : WorkTimeCalculator) (ev : EventType) (t : ℤ) :
    WorkTimeCalculator :=
  let s1 :=
    match ev with
    | .startup =>
      { s with session_start := some t, last_activity := some t, lock_time := none }
    | .unlock =>
      let s2 :=
        match s.lock_time with
        | some lt => { s with total_lock_duration := s.total_lock_duration + (t - lt) }
        | none => s
      { s2 with lock_time := none, last_activity := some t }
    | .lock => { s with lock_time := some t }
    | .shutdown => init
    | .suspend => s
    | .resume => s
  match ev with
  | .startup => { s1 with last_activity := some t }
  | .unlock => { s1 with last_activity := some t }
  | _ => s1

end WorkTimeCalculator

/-- `event_processor.EventFilter`: enabled-kind set, per-kind minimum interval
(seconds, a float in the source, exact here) and per-kind last accepted time.
The Python dictionaries are total/partial maps. -/
structure EventFilter where
  enabled_events : EventType → Bool
  min_interval : EventType → Option ℚ
  last_event_time : EventType → Option ℤ

namespace EventFilter

/-- `should_process`: rejects a disabled kind; rejects when a minimum interval
is configured, a last-accepted time exists, and the elapsed seconds are below
the minimum; otherwise records the event time for the kind and accepts.  The
returned filter is the post-call state (`last_event_time` is written only on
the accepting path, since both rejecting paths `return False` early). -/
def should_process (f : EventFilter) (event_data : SystemEventData) :
    Bool × EventFilter :=
  let ev := event_data.event_type
  let t := event_data.event_time
  if f.enabled_events ev = false then (false, f)
  else
    let accepted : EventFilter :=
      { f with
        last_event_time := fun k => if k = ev then some t else f.last_event_time k }
    match f.min_interval ev with
    | some m =>
      match f.last_event_time ev with
      | some lt => if ((t - lt : ℤ) : ℚ) < m then (false, f) else (true, accepted)
      | none => (true, accepted)
    | none => (true, accepted)

end EventFilter

/-- Feeding a list of envelopes through `should_process`, collecting the
accept/reject verdicts. -/
def runFilter (f : EventFilter) :
    List SystemEventData → EventFilter × List Bool
  | [] => (f, [])
  | e :: rest =>
    let p := f.should_process e
    let r := runFilter p.2 rest
    (r.1, p.1 :: r.2)

/-- Time of the last envelope of kind `k` accepted by the filter along the
trace (the specification's notion of "last accepted envelope of that kind"). -/
def lastAccepted (f : EventFilter) (k : EventType) :
    List SystemEventData → Option ℤ
  | [] => none
  | e :: rest =>
    let p := f.should_process e
    match lastAccepted p.2 k rest with
    | some r => some r
    | none =>
      if p.1 = true ∧ e.event_type = k then some e.event_time else none

/-- The filter configured by `EnhancedEventProcessor._setup_default_filters`:
every kind enabled (`set(EventType)`), Lock/Unlock at 5s minimum,
Suspend/Resume at 10s, no event seen yet. -/
def defaultFilter : EventFilter :=
  { enabled_events := fun _ => true
    min_interval := fun k =>
      match k with
      | .lock => some 5
      | .unlock => some 5
      | .suspend => some 10
      | .resume => some 10
      | _ => none
    last_event_time := fun _ => none }

/-- `event_listener.EventQueue`: bounded FIFO of envelopes.  The Python object
carries only the underlying `queue.Queue(maxsize)` plus consumer-thread
machinery; it has no drop counter or any other accounting field. -/
structure EventQueue where
  max_size : ℕ
  items : List SystemEventData
  deriving DecidableEq, Repr

namespace EventQueue

/-- `EventQueue.put`: `put_nowait` enqueues when below capacity; on
`queue.Full` the envelope is discarded and the exception handler only writes a
warning log line — the queue state is returned unchanged. -/
def put (q : EventQueue) (e : SystemEventData) : EventQueue :=
  if q.items.length < q.max_size then { q with items := q.items ++ [e] } else q

/-- Pushing a list of envelopes in order. -/
def putAll (q : EventQueue) (es : List SystemEventData) : EventQueue :=
  es.foldl put q

end EventQueue

/-! ### Auxiliary notions used by the statements and proofs -/

/-- Seconds covered by a break: 0 while open, `end - start` once closed. -/
def closedSeconds (bp : BreakPeriod) : ℤ :=
  match bp.end_time with
  | none => 0
  | some e => e - bp.start_time

/-- Total seconds covered by the closed breaks of a list. -/
def closedSecSum (l : List BreakPeriod) : ℤ :=
  (l.map closedSeconds).sum

/-- Event list whose times are bounded below by `τ` and nondecreasing. -/
def ChainLB : ℤ → List (EventType × ℤ) → Prop
  | _, [] => True
  | τ, (_, t) :: rest => τ ≤ t ∧ ChainLB t rest

/-- Event list with nondecreasing times (what "an event sequence respecting
the state machine" requires of the timestamps). -/
def Chain : List (EventType × ℤ) → Prop
  | [] => True
  | (_, t) :: rest => ChainLB t rest

/-- State invariant of the session calculator along a monotone event trace,
`τ` being the time of the last processed event: closed breaks have
nonnegative length; the tracked current break is open, started before `τ`
and is the last recorded break; and when a session is open the closed break
seconds fit between the session start and the current-break start (or `τ`). -/
def Good (τ : ℤ) (s : EnhancedWorkTimeCalculator) : Prop :=
  (∀ bp ∈ s.break_periods, 0 ≤ closedSeconds bp) ∧
  (∀ bp, s.current_break = some bp →
    bp.end_time = none ∧ bp.start_time ≤ τ ∧
    s.break_periods.getLast? = some bp) ∧
  (∀ st, s.session_start = some st →
    st ≤ τ ∧
    closedSecSum s.break_periods ≤
      (match s.current_break with
       | some bp => bp.start_time
       | none => τ) - st ∧
    (∀ bp, s.current_break = some bp → st ≤ bp.start_time))

/-- The accounting soundness of one emitted summary: work minutes are
nonnegative, and they complement the break minutes to the session minutes
exactly, except when the standard-mode daily cap binds, in which case the
work minutes equal the cap and stay below the uncapped complement. -/
def SummaryOK (rules : WorkTimeRule) (w : WorkSummary) : Prop :=
  0 ≤ w.work_minutes ∧
  (w.work_minutes + w.total_break_minutes = w.total_session_minutes ∨
    (w.work_mode = WorkMode.standard ∧
     w.work_minutes = ⌊rules.max_daily_hours * 60⌋ ∧
     w.work_minutes + w.total_break_minutes ≤ w.total_session_minutes))

/-- "No prior accepted envelope of that kind exists OR the elapsed time since
the last accepted envelope of that kind is at least the configured minimum":
the acceptance condition of the specification, applied to the last accepted
time `last` of the kind. -/
def priorOk (m : ℚ) (t : ℤ) (last : Option ℤ) : Prop :=
  match last with
  | none => True
  | some lt => m ≤ ((t - lt : ℤ) : ℚ)

/-! ### Concrete states and envelopes used in scenarios -/

/-- A standard-mode calculator with the default rules, as the module-level
`enhanced_calculator = EnhancedWorkTimeCalculator()` instance. -/
def initStd : EnhancedWorkTimeCalculator :=
  EnhancedWorkTimeCalculator.init WorkMode.standard defaultRules

/-- Calculator in the Active condition: session opened at time 0, no break. -/
def activeAt0 : EnhancedWorkTimeCalculator :=
  (runCalc initStd [(EventType.startup, 0)]).1

/-- Calculator in the OnBreak condition: session opened at 0, break open
since 100. -/
def onBreakAt100 : EnhancedWorkTimeCalculator :=
  (runCalc initStd [(EventType.startup, 0), (EventType.lock, 100)]).1

/-- Calculator with a session opened at time 100 (for late-envelope tests). -/
def openAt100 : EnhancedWorkTimeCalculator :=
  (runCalc initStd [(EventType.startup, 100)]).1

/-- A lock envelope at time `t` (system origin, no detail text). -/
def lockEnvelope (t : ℤ) : SystemEventData :=
  { event_type := EventType.lock, event_time := t
    source := EventSource.system, details := none }

/-- Scenario A of the specification, in seconds: Startup 09:00, Lock 12:00,
Unlock 13:00, Shutdown 18:00. -/
def scenarioA : List (EventType × ℤ) :=
  [(EventType.startup, 32400), (EventType.lock, 43200),
   (EventType.unlock, 46800), (EventType.shutdown, 64800)]

/-- A queue of capacity 3 filled to capacity. -/
def fullQueue3 : EventQueue :=
  { max_size := 3, items := [lockEnvelope 1, lockEnvelope 2, lockEnvelope 3] }

/-- The summary the calculator derives for the 600-second session
Startup at 0, Shutdown at 600 (standard mode, default rules). -/
def shortSummary : WorkSummary :=
  { session_start := 0, session_end := 600, total_session_minutes := 10,
    total_break_minutes := 0, work_minutes := 10, overtime_minutes := 0,
    efficiency := 1, work_mode := WorkMode.standard }

end TimeTrace

/-! ## Basic lemmas about the calculator operations -/

namespace TimeTrace

namespace EnhancedWorkTimeCalculator

theorem end_break_session_start (s : EnhancedWorkTimeCalculator) (t : ℤ) :
    (s.end_break t).session_start = s.session_start := by
  unfold end_break
  split
  · rfl
  · split <;> rfl

theorem end_break_session_end (s : EnhancedWorkTimeCalculator) (t : ℤ) :
    (s.end_break t).session_end = s.session_end := by
  unfold end_break
  split
  · rfl
  · split <;> rfl

theorem end_break_rules (s : EnhancedWorkTimeCalculator) (t : ℤ) :
    (s.end_break t).rules = s.rules := by
  unfold end_break
  split
  · rfl
  · split <;> rfl

theorem end_break_work_mode (s : EnhancedWorkTimeCalculator) (t : ℤ) :
    (s.end_break t).work_mode = s.work_mode := by
  unfold end_break
  split
  · rfl
  · split <;> rfl

/-- Closing a tracked open break replaces the last recorded break by its
closed version. -/
theorem end_break_spec (s : EnhancedWorkTimeCalculator) (t : ℤ) (bp : BreakPeriod)
    (hcb : s.current_break = some bp) (hopen : bp.end_time = none) :
    s.end_break t =
      { s with
        break_periods := s.break_periods.dropLast ++ [{ bp with end_time := some t }]
        current_break := none
        last_activity := some t } := by
  simp [end_break, hcb, BreakPeriod.is_active, hopen]

end EnhancedWorkTimeCalculator

theorem getLast?_some_eq_append {α : Type _} {l : List α} {a : α}
    (h : l.getLast? = some a) : l = l.dropLast ++ [a] := by
  obtain ⟨ys, rfl⟩ := List.getLast?_eq_some_iff.1 h
  simp

theorem closedSecSum_append (l1 l2 : List BreakPeriod) :
    closedSecSum (l1 ++ l2) = closedSecSum l1 + closedSecSum l2 := by
  simp [closedSecSum]

theorem closedSeconds_open {bp : BreakPeriod} (h : bp.end_time = none) :
    closedSeconds bp = 0 := by
  simp [closedSeconds, h]

theorem duration_eq_tdiv (bp : BreakPeriod) :
    bp.duration_minutes = Int.tdiv (closedSeconds bp) 60 := by
  cases h : bp.end_time <;> simp [BreakPeriod.duration_minutes, closedSeconds, h]

theorem totalBreakMinutes_cons (bp : BreakPeriod) (l : List BreakPeriod) :
    totalBreakMinutes (bp :: l) = bp.duration_minutes + totalBreakMinutes l := by
  simp [totalBreakMinutes]

theorem closedSecSum_cons (bp : BreakPeriod) (l : List BreakPeriod) :
    closedSecSum (bp :: l) = closedSeconds bp + closedSecSum l := by
  simp [closedSecSum]

/-- The truncated per-break minutes are nonnegative and undercount the real
break seconds, provided every closed break has nonnegative length. -/
theorem totalBreakMinutes_nonneg_le (l : List BreakPeriod)
    (h : ∀ bp ∈ l, 0 ≤ closedSeconds bp) :
    0 ≤ totalBreakMinutes l ∧ totalBreakMinutes l * 60 ≤ closedSecSum l := by
  induction l with
  | nil => simp [totalBreakMinutes, closedSecSum]
  | cons bp rest ih =>
    have hbp : 0 ≤ closedSeconds bp := h bp (by simp)
    obtain ⟨ih1, ih2⟩ := ih (fun b hb => h b (by simp [hb]))
    have h1 : 0 ≤ Int.tdiv (closedSeconds bp) 60 :=
      Int.tdiv_nonneg hbp (by norm_num)
    have h2 : Int.tdiv (closedSeconds bp) 60 * 60 ≤ closedSeconds bp := by
      rw [Int.tdiv_eq_ediv hbp (by norm_num)]
      exact Int.ediv_mul_le _ (by norm_num)
    rw [totalBreakMinutes_cons, closedSecSum_cons, duration_eq_tdiv]
    constructor
    · omega
    · nlinarith

theorem good_mono {τ t : ℤ} (h : τ ≤ t) {s : EnhancedWorkTimeCalculator}
    (hg : Good τ s) : Good t s := by
  obtain ⟨h1, h2, h3⟩ := hg
  refine ⟨h1, fun bp hbp => ?_, fun st hst => ?_⟩
  · obtain ⟨ha, hb, hc⟩ := h2 bp hbp
    exact ⟨ha, le_trans hb h, hc⟩
  · obtain ⟨ha, hb, hc⟩ := h3 st hst
    refine ⟨le_trans ha h, ?_, hc⟩
    cases hcb : s.current_break with
    | some bp =>
      simpa [hcb] using hb
    | none =>
      simp only [hcb] at hb ⊢
      omega

theorem qtrunc_eq_floor {q : ℚ} (h : 0 ≤ q) : qtrunc q = ⌊q⌋ := by
  simp [qtrunc, not_lt.2 h]

end TimeTrace

/-! ## Soundness of the derived summary -/

namespace TimeTrace

lemma calculate_work_time_ok (s : EnhancedWorkTimeCalculator) (st en : ℤ)
    (hst : s.session_start = some st) (hen : s.session_end = some en)
    (hr : 0 ≤ s.rules.max_daily_hours)
    (hnn : ∀ bp ∈ s.break_periods, 0 ≤ closedSeconds bp)
    (hsum : closedSecSum s.break_periods ≤ en - st)
    (hD : st ≤ en) :
    ∀ w, s.calculate_work_time = some w → SummaryOK s.rules w := by
  intro w hw
  simp only [EnhancedWorkTimeCalculator.calculate_work_time, hst, hen,
    Option.some.injEq] at hw
  subst hw
  obtain ⟨hb0, hb60⟩ := totalBreakMinutes_nonneg_le _ hnn
  have hbQ : (totalBreakMinutes s.break_periods : ℚ) ≤ sessionMinutesQ st en := by
    rw [sessionMinutesQ, le_div_iff₀ (by norm_num : (0:ℚ) < 60)]
    have h : (totalBreakMinutes s.break_periods * 60 : ℤ) ≤ en - st :=
      le_trans hb60 hsum
    exact_mod_cast h
  have hsQ0 : 0 ≤ sessionMinutesQ st en := by
    rw [sessionMinutesQ]
    apply div_nonneg _ (by norm_num)
    exact_mod_cast sub_nonneg.2 hD
  have hmax : max 0 (sessionMinutesQ st en - (totalBreakMinutes s.break_periods : ℚ)) =
      sessionMinutesQ st en - (totalBreakMinutes s.break_periods : ℚ) :=
    max_eq_right (by linarith)
  simp only [SummaryOK, hmax]
  have hfloor_sess : qtrunc (sessionMinutesQ st en) = ⌊sessionMinutesQ st en⌋ :=
    qtrunc_eq_floor hsQ0
  cases hm : s.work_mode with
  | flexible =>
    simp only [applyWorkModeRules, hfloor_sess]
    have wq0 : (0:ℚ) ≤ sessionMinutesQ st en - (totalBreakMinutes s.break_periods : ℚ) := by
      linarith
    rw [qtrunc_eq_floor wq0, Int.floor_sub_int]
    refine ⟨?_, Or.inl (by omega)⟩
    have hble : totalBreakMinutes s.break_periods ≤ ⌊sessionMinutesQ st en⌋ :=
      Int.le_floor.2 (by exact_mod_cast hbQ)
    omega
  | shift =>
    simp only [applyWorkModeRules, hfloor_sess]
    have wq0 : (0:ℚ) ≤ sessionMinutesQ st en - (totalBreakMinutes s.break_periods : ℚ) := by
      linarith
    rw [qtrunc_eq_floor wq0, Int.floor_sub_int]
    refine ⟨?_, Or.inl (by omega)⟩
    have hble : totalBreakMinutes s.break_periods ≤ ⌊sessionMinutesQ st en⌋ :=
      Int.le_floor.2 (by exact_mod_cast hbQ)
    omega
  | remote =>
    simp only [applyWorkModeRules, hfloor_sess]
    have wq0 : (0:ℚ) ≤ sessionMinutesQ st en - (totalBreakMinutes s.break_periods : ℚ) := by
      linarith
    rw [qtrunc_eq_floor wq0, Int.floor_sub_int]
    refine ⟨?_, Or.inl (by omega)⟩
    have hble : totalBreakMinutes s.break_periods ≤ ⌊sessionMinutesQ st en⌋ :=
      Int.le_floor.2 (by exact_mod_cast hbQ)
    omega
  | standard =>
    simp only [applyWorkModeRules, hfloor_sess]
    have hcap0 : (0:ℚ) ≤ s.rules.max_daily_hours * 60 := by nlinarith
    rcases le_total (sessionMinutesQ st en - (totalBreakMinutes s.break_periods : ℚ))
        (s.rules.max_daily_hours * 60) with hle | hle
    · rw [min_eq_left hle]
      have wq0 : (0:ℚ) ≤ sessionMinutesQ st en - (totalBreakMinutes s.break_periods : ℚ) := by
        linarith
      rw [qtrunc_eq_floor wq0, Int.floor_sub_int]
      refine ⟨?_, Or.inl (by omega)⟩
      have hble : totalBreakMinutes s.break_periods ≤ ⌊sessionMinutesQ st en⌋ :=
        Int.le_floor.2 (by exact_mod_cast hbQ)
      omega
    · rw [min_eq_right hle, qtrunc_eq_floor hcap0]
      have h1 : (0:ℤ) ≤ ⌊s.rules.max_daily_hours * 60⌋ :=
        Int.le_floor.2 (by exact_mod_cast hcap0)
      refine ⟨h1, Or.inr ⟨by trivial, rfl, ?_⟩⟩
      apply Int.le_floor.2
      push_cast
      have h2 : (⌊s.rules.max_daily_hours * 60⌋ : ℚ) ≤ s.rules.max_daily_hours * 60 :=
        Int.floor_le _
      linarith

end TimeTrace

/-! ## Preservation of the state invariant along a trace -/

namespace TimeTrace

open EnhancedWorkTimeCalculator

lemma good_start_work (s : EnhancedWorkTimeCalculator) (t : ℤ) :
    Good t (s.start_work_session t) := by
  refine ⟨?_, ?_, ?_⟩
  · intro bp hbp
    simp [start_work_session] at hbp
  · intro bp h
    simp [start_work_session] at h
  · intro st hst
    simp only [start_work_session] at hst
    rw [Option.some.injEq] at hst
    subst hst
    refine ⟨le_refl _, ?_, ?_⟩
    · simp [start_work_session, closedSecSum]
    · intro bp h
      simp [start_work_session] at h

lemma good_end_break {τ t : ℤ} {s : EnhancedWorkTimeCalculator} {bp : BreakPeriod}
    (hg : Good τ s) (hτ : τ ≤ t) (hcb : s.current_break = some bp) :
    (s.end_break t).current_break = none ∧
    (∀ b ∈ (s.end_break t).break_periods, 0 ≤ closedSeconds b) ∧
    closedSecSum (s.end_break t).break_periods =
      closedSecSum s.break_periods + (t - bp.start_time) ∧
    bp.start_time ≤ t := by
  obtain ⟨h1, h2, _⟩ := hg
  obtain ⟨hopen, hbpτ, hlast⟩ := h2 bp hcb
  have hbpt : bp.start_time ≤ t := le_trans hbpτ hτ
  have hspec := end_break_spec s t bp hcb hopen
  have hl : s.break_periods = s.break_periods.dropLast ++ [bp] :=
    getLast?_some_eq_append hlast
  have hsum_drop : closedSecSum s.break_periods =
      closedSecSum s.break_periods.dropLast := by
    conv_lhs => rw [hl]
    rw [closedSecSum_append]
    simp [closedSecSum, closedSeconds_open hopen]
  refine ⟨by rw [hspec], ?_, ?_, hbpt⟩
  · intro b hb
    rw [hspec] at hb
    simp only at hb
    rcases List.mem_append.1 hb with hb | hb
    · exact h1 b (by rw [hl]; exact List.mem_append_left _ hb)
    · have hbeq : b = { bp with end_time := some t } := by simpa using hb
      subst hbeq
      simp only [closedSeconds]
      omega
  · rw [hspec]
    simp only
    rw [closedSecSum_append, hsum_drop]
    simp [closedSecSum, closedSeconds]

lemma good_after_end_break {τ t : ℤ} {s : EnhancedWorkTimeCalculator}
    {bp : BreakPeriod} (hg : Good τ s) (hτ : τ ≤ t)
    (hcb : s.current_break = some bp) :
    Good t (s.end_break t) := by
  obtain ⟨hnone, hnn, hsum, hbpt⟩ := good_end_break hg hτ hcb
  refine ⟨hnn, ?_, ?_⟩
  · intro b hb
    rw [hnone] at hb
    simp at hb
  · intro st hst
    rw [end_break_session_start] at hst
    obtain ⟨h3a, h3b, h3c⟩ := hg.2.2 st hst
    simp only [hcb] at h3b
    refine ⟨le_trans h3a hτ, ?_, ?_⟩
    · simp only [hnone, hsum]
      omega
    · intro b hb
      rw [hnone] at hb
      simp at hb

lemma good_append_open {t : ℤ} {s1 : EnhancedWorkTimeCalculator}
    (hnn : ∀ b ∈ s1.break_periods, 0 ≤ closedSeconds b)
    (hsess : ∀ st, s1.session_start = some st →
      st ≤ t ∧ closedSecSum s1.break_periods ≤ t - st) :
    Good t { s1 with
      break_periods :=
        s1.break_periods ++ [{ start_time := t, end_time := none,
                               break_type := BreakType.system }]
      current_break := some { start_time := t, end_time := none,
                              break_type := BreakType.system } } := by
  refine ⟨?_, ?_, ?_⟩
  · intro b hb
    simp only at hb
    rcases List.mem_append.1 hb with hb | hb
    · exact hnn b hb
    · have hbeq : b = { start_time := t, end_time := none,
                        break_type := BreakType.system } := by simpa using hb
      subst hbeq
      simp [closedSeconds]
  · intro b hb
    simp only [Option.some.injEq] at hb
    subst hb
    exact ⟨rfl, le_refl _, by simp⟩
  · intro st hst
    simp only at hst
    obtain ⟨ha, hb⟩ := hsess st hst
    refine ⟨ha, ?_, ?_⟩
    · simp only [closedSecSum_append]
      have h0 : closedSecSum [({ start_time := t, end_time := none,
                                 break_type := BreakType.system } : BreakPeriod)] = 0 := by
        simp [closedSecSum, closedSeconds]
      simp only [h0]
      omega
    · intro b hbb
      simp only [Option.some.injEq] at hbb
      subst hbb
      exact ha

lemma start_break_rules (s : EnhancedWorkTimeCalculator) (t : ℤ) (ty : BreakType) :
    (s.start_break t ty).rules = s.rules ∧
    (s.start_break t ty).work_mode = s.work_mode ∧
    (s.start_break t ty).session_start = s.session_start ∧
    (s.start_break t ty).session_end = s.session_end := by
  unfold start_break
  cases hcb : s.current_break with
  | none => refine ⟨?_, ?_, ?_, ?_⟩ <;> trivial
  | some bp =>
    by_cases h : bp.is_active = true
    · simp only [h, if_true]
      refine ⟨?_, ?_, ?_, ?_⟩
      · exact end_break_rules s t
      · exact end_break_work_mode s t
      · exact end_break_session_start s t
      · exact end_break_session_end s t
    · simp only [Bool.not_eq_true] at h
      simp only [h, Bool.false_eq_true, if_false]
      refine ⟨?_, ?_, ?_, ?_⟩ <;> trivial

lemma end_work_session_rules (s : EnhancedWorkTimeCalculator) (t : ℤ) :
    (s.end_work_session t).1.rules = s.rules ∧
    (s.end_work_session t).1.work_mode = s.work_mode := by
  unfold end_work_session
  cases hss : s.session_start with
  | none => refine ⟨?_, ?_⟩ <;> trivial
  | some st =>
    simp only
    cases hcb : s.current_break with
    | none => refine ⟨?_, ?_⟩ <;> trivial
    | some bp =>
      by_cases h : bp.is_active = true
      · simp only [hcb, h, if_true]
        refine ⟨?_, ?_⟩
        · exact end_break_rules _ t
        · exact end_break_work_mode _ t
      · simp only [Bool.not_eq_true] at h
        simp only [hcb, h, Bool.false_eq_true, if_false]
        refine ⟨?_, ?_⟩ <;> trivial

lemma handle_rules (s : EnhancedWorkTimeCalculator) (ev : EventType) (t : ℤ) :
    (s.handle_system_event ev t).1.rules = s.rules ∧
    (s.handle_system_event ev t).1.work_mode = s.work_mode := by
  cases ev with
  | startup => refine ⟨?_, ?_⟩ <;> trivial
  | suspend => refine ⟨?_, ?_⟩ <;> trivial
  | resume => refine ⟨?_, ?_⟩ <;> trivial
  | lock =>
    exact ⟨(start_break_rules s t BreakType.system).1,
      (start_break_rules s t BreakType.system).2.1⟩
  | unlock =>
    simp only [handle_system_event]
    cases hcb : s.current_break with
    | none => refine ⟨?_, ?_⟩ <;> trivial
    | some bp =>
      by_cases h : bp.break_type = BreakType.system
      · simp only [h, if_true]
        refine ⟨?_, ?_⟩
        · exact end_break_rules s t
        · exact end_break_work_mode s t
      · simp only [if_neg h]
        refine ⟨?_, ?_⟩ <;> trivial
  | shutdown =>
    simp only [handle_system_event]
    cases hss : s.session_start with
    | none => refine ⟨?_, ?_⟩ <;> trivial
    | some st => exact end_work_session_rules s t

lemma good_last_activity (τ : ℤ) (s : EnhancedWorkTimeCalculator) (x : Option ℤ) :
    Good τ { s with last_activity := x } ↔ Good τ s := Iff.rfl

lemma good_session_end (τ : ℤ) (s : EnhancedWorkTimeCalculator) (x : Option ℤ) :
    Good τ { s with session_end := x } ↔ Good τ s := Iff.rfl

lemma good_step {τ t : ℤ} (s : EnhancedWorkTimeCalculator) (ev : EventType)
    (hτ : τ ≤ t) (hg : Good τ s) (hr : 0 ≤ s.rules.max_daily_hours) :
    Good t (s.handle_system_event ev t).1 ∧
    ∀ w, (s.handle_system_event ev t).2 = some w → SummaryOK s.rules w := by
  cases ev with
  | startup =>
    refine ⟨good_start_work s t, ?_⟩
    intro w hw
    simp [handle_system_event] at hw
  | suspend =>
    exact ⟨good_mono hτ hg, fun w hw => by simp [handle_system_event] at hw⟩
  | resume =>
    exact ⟨good_mono hτ hg, fun w hw => by simp [handle_system_event] at hw⟩
  | lock =>
    refine ⟨?_, fun w hw => by simp [handle_system_event] at hw⟩
    show Good t (s.start_break t BreakType.system)
    unfold start_break
    cases hcb : s.current_break with
    | none =>
      simp only
      apply good_append_open hg.1
      intro st hst
      obtain ⟨ha, hb, _⟩ := hg.2.2 st hst
      simp only [hcb] at hb
      exact ⟨le_trans ha hτ, by omega⟩
    | some bp =>
      obtain ⟨hopen, hbpτ, hlast⟩ := hg.2.1 bp hcb
      have hact : bp.is_active = true := by
        simp [BreakPeriod.is_active, hopen]
      simp only [hact, if_true]
      obtain ⟨hnone, hnn, hsum, hbpt⟩ := good_end_break hg hτ hcb
      apply good_append_open hnn
      intro st hst
      rw [end_break_session_start] at hst
      obtain ⟨ha, hb, _⟩ := hg.2.2 st hst
      simp only [hcb] at hb
      refine ⟨le_trans ha hτ, ?_⟩
      rw [hsum]
      omega
  | unlock =>
    refine ⟨?_, fun w hw => by simp [handle_system_event] at hw⟩
    simp only [handle_system_event]
    cases hcb : s.current_break with
    | none =>
      exact (good_last_activity t s (some t)).mpr (good_mono hτ hg)
    | some bp =>
      dsimp only
      by_cases hbt : bp.break_type = BreakType.system
      · rw [if_pos hbt]
        exact (good_last_activity t _ (some t)).mpr (good_after_end_break hg hτ hcb)
      · rw [if_neg hbt]
        exact (good_last_activity t s (some t)).mpr (good_mono hτ hg)
  | shutdown =>
    simp only [handle_system_event]
    cases hss : s.session_start with
    | none =>
      refine ⟨good_mono hτ hg, ?_⟩
      intro w hw
      simp at hw
    | some st =>
      unfold end_work_session
      simp only [hss]
      have hg1 : Good τ { s with session_end := some t } :=
        (good_session_end τ s (some t)).mpr hg
      cases hcb : s.current_break with
      | none =>
        dsimp only
        rw [← hss, ← hcb]
        refine ⟨(good_session_end t s (some t)).mpr (good_mono hτ hg), ?_⟩
        intro w hw
        have hsum1 : closedSecSum s.break_periods ≤ t - st := by
          obtain ⟨ha, hb, _⟩ := hg.2.2 st hss
          simp only [hcb] at hb
          omega
        have hD1 : st ≤ t := le_trans (hg.2.2 st hss).1 hτ
        exact calculate_work_time_ok { s with session_end := some t } st t
          hss rfl hr hg.1 hsum1 hD1 w hw
      | some bp =>
        obtain ⟨hopen, hbpτ, hlast⟩ := hg.2.1 bp hcb
        have hact : bp.is_active = true := by
          simp [BreakPeriod.is_active, hopen]
        dsimp only
        rw [if_pos hact, ← hss, ← hcb]
        have hcb1 : ({ s with session_end := some t } :
            EnhancedWorkTimeCalculator).current_break = some bp := hcb
        have hgood2 : Good t (({ s with session_end := some t } :
            EnhancedWorkTimeCalculator).end_break t) :=
          good_after_end_break hg1 hτ hcb1
        obtain ⟨hnone2, hnn2, hsum2, hbpt2⟩ := good_end_break hg1 hτ hcb1
        refine ⟨hgood2, ?_⟩
        intro w hw
        have hst2 : (({ s with session_end := some t } :
            EnhancedWorkTimeCalculator).end_break t).session_start = some st := by
          rw [end_break_session_start]
          exact hss
        have hen2 : (({ s with session_end := some t } :
            EnhancedWorkTimeCalculator).end_break t).session_end = some t := by
          rw [end_break_session_end]
        have hr2 : 0 ≤ (({ s with session_end := some t } :
            EnhancedWorkTimeCalculator).end_break t).rules.max_daily_hours := by
          rw [end_break_rules]
          exact hr
        have hsum3 : closedSecSum (({ s with session_end := some t } :
            EnhancedWorkTimeCalculator).end_break t).break_periods ≤ t - st := by
          rw [hsum2]
          have hfold : closedSecSum ({ s with session_end := some t } :
              EnhancedWorkTimeCalculator).break_periods =
              closedSecSum s.break_periods := rfl
          rw [hfold]
          obtain ⟨ha, hb, _⟩ := hg.2.2 st hss
          simp only [hcb] at hb
          omega
        have hD2 : st ≤ t := le_trans (hg.2.2 st hss).1 hτ
        have hres := calculate_work_time_ok _ st t hst2 hen2 hr2 hnn2 hsum3 hD2 w hw
        rwa [end_break_rules] at hres

lemma good_init (τ : ℤ) (mode : WorkMode) (rules : WorkTimeRule) :
    Good τ (EnhancedWorkTimeCalculator.init mode rules) := by
  refine ⟨?_, ?_, ?_⟩ <;> intro x hx <;> simp [EnhancedWorkTimeCalculator.init] at hx

lemma runCalc_good {τ : ℤ} (es : List (EventType × ℤ)) (s : EnhancedWorkTimeCalculator)
    (hg : Good τ s) (hc : ChainLB τ es) (hr : 0 ≤ s.rules.max_daily_hours) :
    ∀ w ∈ (runCalc s es).2, SummaryOK s.rules w := by
  induction es generalizing τ s with
  | nil =>
    intro w hw
    simp [runCalc] at hw
  | cons e rest ih =>
    obtain ⟨ev, te⟩ := e
    obtain ⟨hle, hcr⟩ := hc
    obtain ⟨hg2, hemit⟩ := good_step s ev hle hg hr
    intro w hw
    simp only [runCalc] at hw
    rcases List.mem_append.1 hw with hw1 | hw1
    · cases hp : (s.handle_system_event ev te).2 with
      | none =>
        rw [hp] at hw1
        simp at hw1
      | some w0 =>
        rw [hp] at hw1
        have hww : w = w0 := by simpa using hw1
        subst hww
        exact hemit w hp
    · have hrw := handle_rules s ev te
      have hr2 : 0 ≤ (s.handle_system_event ev te).1.rules.max_daily_hours := by
        rw [hrw.1]
        exact hr
      have hres := ih (s.handle_system_event ev te).1 hg2 hcr hr2 w hw1
      rwa [hrw.1] at hres

end TimeTrace

/-! ## Lemmas about the event filter -/

namespace TimeTrace

lemma sp_cases (f : EventFilter) (e : SystemEventData) :
    f.should_process e =
      (true, { f with last_event_time := fun k =>
        if k = e.event_type then some e.event_time else f.last_event_time k })
    ∨ f.should_process e = (false, f) := by
  unfold EventFilter.should_process
  dsimp only
  split
  · exact Or.inr rfl
  · split
    · split
      · split
        · exact Or.inr rfl
        · exact Or.inl rfl
      · exact Or.inl rfl
    · exact Or.inl rfl

lemma sp_true_iff (f : EventFilter) (e : SystemEventData) (m : ℚ)
    (hm : f.min_interval e.event_type = some m) :
    (f.should_process e).1 = true ↔
      f.enabled_events e.event_type = true ∧
      priorOk m e.event_time (f.last_event_time e.event_type) := by
  unfold EventFilter.should_process
  dsimp only
  by_cases hen : f.enabled_events e.event_type = false
  · simp [hen]
  · have hen2 : f.enabled_events e.event_type = true := by
      cases hv : f.enabled_events e.event_type
      · exact absurd hv hen
      · rfl
    rw [if_neg hen]
    simp only [hm]
    cases hl : f.last_event_time e.event_type with
    | none => simp [priorOk, hen2]
    | some lt =>
      simp only [priorOk]
      push_cast
      split
      · rename_i hlt
        simp [not_le.2 hlt]
      · rename_i hlt
        simp [hen2, not_lt.1 hlt]

lemma runFilter_enabled (es : List SystemEventData) (f : EventFilter) :
    (runFilter f es).1.enabled_events = f.enabled_events := by
  induction es generalizing f with
  | nil => rfl
  | cons e rest ih =>
    simp only [runFilter]
    rw [ih]
    rcases sp_cases f e with h | h <;> rw [h]

lemma runFilter_min (es : List SystemEventData) (f : EventFilter) :
    (runFilter f es).1.min_interval = f.min_interval := by
  induction es generalizing f with
  | nil => rfl
  | cons e rest ih =>
    simp only [runFilter]
    rw [ih]
    rcases sp_cases f e with h | h <;> rw [h]

lemma runFilter_last (es : List SystemEventData) (f : EventFilter) (k : EventType) :
    (runFilter f es).1.last_event_time k =
      (match lastAccepted f k es with
       | some r => some r
       | none => f.last_event_time k) := by
  induction es generalizing f with
  | nil => rfl
  | cons e rest ih =>
    simp only [runFilter, lastAccepted]
    rw [ih]
    cases hA : lastAccepted (f.should_process e).2 k rest with
    | some r => simp [hA]
    | none =>
      simp only [hA]
      rcases sp_cases f e with h | h
      · rw [h]
        by_cases hk : e.event_type = k
        · simp [hk]
        · have hk2 : ¬ k = e.event_type := fun hkk => hk hkk.symm
          simp [hk, hk2]
      · rw [h]
        simp

end TimeTrace

/-! ## Lemmas about session close -/

namespace TimeTrace

lemma end_work_session_spec (s : EnhancedWorkTimeCalculator) (t st : ℤ)
    (hst : s.session_start = some st) :
    (s.end_work_session t).2 = (s.end_work_session t).1.calculate_work_time ∧
    (s.end_work_session t).1.session_start = some st ∧
    (s.end_work_session t).1.session_end = some t := by
  unfold EnhancedWorkTimeCalculator.end_work_session
  simp only [hst]
  cases hcb : s.current_break with
  | none => exact ⟨trivial, rfl, rfl⟩
  | some bp =>
    dsimp only
    by_cases h : bp.is_active = true
    · rw [if_pos h]
      refine ⟨trivial, ?_, ?_⟩
      · rw [EnhancedWorkTimeCalculator.end_break_session_start]
      · rw [EnhancedWorkTimeCalculator.end_break_session_end]
    · rw [if_neg h]
      exact ⟨trivial, rfl, rfl⟩

lemma applyWorkModeRules_nonneg (mode : WorkMode) (rules : WorkTimeRule)
    (hr : 0 ≤ rules.max_daily_hours) (w : ℚ) (hw : 0 ≤ w) :
    0 ≤ applyWorkModeRules mode rules w := by
  cases mode <;> simp only [applyWorkModeRules]
  · exact le_min hw (by nlinarith)
  · exact hw
  · exact hw
  · exact hw

lemma calcEfficiency_bounds (w tot : ℚ) (hw : 0 ≤ w) :
    0 ≤ calcEfficiency w tot ∧ calcEfficiency w tot ≤ 1 := by
  unfold calcEfficiency
  split
  · norm_num
  · rename_i h
    have h2 : 0 < tot := not_le.1 h
    exact ⟨le_min (by norm_num) (div_nonneg hw h2.le), min_le_left _ _⟩

end TimeTrace

/-! ## Claims -/

namespace TimeTrace

open EnhancedWorkTimeCalculator

/-- C1 (counterexample): from the Active condition (session open at 0, no
open break), a Suspend event at time 100 leaves the calculator completely
unchanged and hands nothing to persistence — no SystemLock break is opened —
and a following Resume is likewise a no-op, contradicting the claimed
Suspend/Resume break transitions. -/
theorem C1_counterexample :
    activeAt0.session_start = some 0 ∧
    activeAt0.current_break = none ∧
    activeAt0.handle_system_event EventType.suspend 100 = (activeAt0, none) ∧
    (runCalc activeAt0 [(EventType.suspend, 100), (EventType.resume, 200)]).1 =
      activeAt0 := by
  refine ⟨?_, ?_, ?_, ?_⟩ <;> rfl

/-- C1 (amended): the dispatch of `handle_system_event` has no branch for
Suspend or Resume, so in every state both events are ignored: the state is
returned unchanged and no summary is handed to persistence.  Breaks open and
close only on Lock/Unlock (and at session close). -/
theorem C1_suspend_resume_ignored (s : EnhancedWorkTimeCalculator) (t : ℤ) :
    s.handle_system_event EventType.suspend t = (s, none) ∧
    s.handle_system_event EventType.resume t = (s, none) :=
  ⟨rfl, rfl⟩

/-- C2 (counterexample): an Unlock received in the Idle state (both in the
enhanced calculator and in `event_processor.WorkTimeCalculator`) does not open
a session: `session_start` stays `none`, contradicting the claimed
treat-as-implicit-startup transition. -/
theorem C2_counterexample :
    ((initStd.handle_system_event EventType.unlock 100).1).session_start = none ∧
    (WorkTimeCalculator.init.handle_event EventType.unlock 100).session_start =
      none := by
  refine ⟨?_, ?_⟩ <;> rfl

/-- C2 (amended): when no session is open, an Unlock event opens no session.
The enhanced calculator only closes an open SystemLock break (if any) and
updates `last_activity` to the event time, handing nothing to persistence,
and `event_processor.WorkTimeCalculator` likewise leaves `session_start`
unset.  Only a Startup event opens a session. -/
theorem C2_unlock_idle_no_session (s : EnhancedWorkTimeCalculator)
    (u : WorkTimeCalculator) (t : ℤ)
    (hs : s.session_start = none) (hu : u.session_start = none) :
    ((s.handle_system_event EventType.unlock t).1).session_start = none ∧
    ((s.handle_system_event EventType.unlock t).1).last_activity = some t ∧
    (s.handle_system_event EventType.unlock t).2 = none ∧
    (u.handle_event EventType.unlock t).session_start = none := by
  refine ⟨?_, rfl, rfl, ?_⟩
  · simp only [handle_system_event]
    cases hcb : s.current_break with
    | none => exact hs
    | some bp =>
      dsimp only
      by_cases hbt : bp.break_type = BreakType.system
      · rw [if_pos hbt]
        show (s.end_break t).session_start = none
        rw [end_break_session_start]
        exact hs
      · rw [if_neg hbt]
        exact hs
  · simp only [WorkTimeCalculator.handle_event]
    cases hlt : u.lock_time <;> simp [hlt] <;> exact hu

/-- C2 (witness): the amended statement at the fresh calculators and event
time 100. -/
theorem C2_witness :
    ((initStd.handle_system_event EventType.unlock 100).1).session_start = none ∧
    ((initStd.handle_system_event EventType.unlock 100).1).last_activity =
      some 100 ∧
    (initStd.handle_system_event EventType.unlock 100).2 = none ∧
    (WorkTimeCalculator.init.handle_event EventType.unlock 100).session_start =
      none :=
  C2_unlock_idle_no_session initStd WorkTimeCalculator.init 100 rfl rfl

/-- C3 (counterexample): with a session open since 0 and a break open since
100, a Startup at 200 hands no summary to persistence (second component
`none`), silently discarding the session and its recorded break, and opens the
new session — contradicting the claimed force-close-with-summary. -/
theorem C3_counterexample :
    onBreakAt100.session_start = some 0 ∧
    onBreakAt100.break_periods =
      [{ start_time := 100, end_time := none, break_type := BreakType.system }] ∧
    (onBreakAt100.handle_system_event EventType.startup 200).2 = none ∧
    ((onBreakAt100.handle_system_event EventType.startup 200).1).session_start =
      some 200 ∧
    ((onBreakAt100.handle_system_event EventType.startup 200).1).break_periods =
      [] := by
  refine ⟨?_, ?_, ?_, ?_, ?_⟩ <;> rfl

/-- C3 (amended): in every state — in particular with a session already
open — a Startup event opens a new session at the event time after discarding
the current session state (breaks cleared, bookkeeping reset) WITHOUT
computing a WorkTimeSummary and without invoking the persistence
collaborator. -/
theorem C3_startup_discards_session (s : EnhancedWorkTimeCalculator) (t : ℤ) :
    s.handle_system_event EventType.startup t =
      ({ work_mode := s.work_mode, rules := s.rules, session_start := some t,
         session_end := none, last_activity := some t, break_periods := [],
         current_break := none }, none) :=
  rfl

/-- C4 (counterexample): after Startup at 0 and Shutdown at 600 the
calculator still has `session_start = some 0` — it is not reset to Idle — and
a second Shutdown at 700 computes and hands off a second summary for the same
session, contradicting the claimed reset. -/
theorem C4_counterexample :
    ((activeAt0.handle_system_event EventType.shutdown 600).1).session_start =
      some 0 ∧
    (((activeAt0.handle_system_event EventType.shutdown 600).1).handle_system_event
        EventType.shutdown 700).2.isSome = true := by
  refine ⟨?_, ?_⟩ <;> rfl

/-- C4 (amended): for every open session (whose current break, if any, is
open), a Shutdown event closes any open break at the event time, records the
session end, computes the WorkTimeSummary and hands it to the persistence
collaborator; but the calculator is NOT reset to Idle: `session_start` keeps
its value (and the break list is retained), so state is cleared only by the
next `start_work_session`. -/
theorem C4_shutdown_no_reset (s : EnhancedWorkTimeCalculator) (st t : ℤ)
    (hst : s.session_start = some st)
    (hcb : ∀ bp, s.current_break = some bp → bp.end_time = none) :
    ((s.handle_system_event EventType.shutdown t).2).isSome = true ∧
    ((s.handle_system_event EventType.shutdown t).1).session_start = some st ∧
    ((s.handle_system_event EventType.shutdown t).1).session_end = some t ∧
    ((s.handle_system_event EventType.shutdown t).1).current_break = none := by
  have hdisp : s.handle_system_event EventType.shutdown t = s.end_work_session t := by
    simp only [handle_system_event, hst]
  obtain ⟨he, hust, huen⟩ := end_work_session_spec s t st hst
  rw [hdisp]
  refine ⟨?_, hust, huen, ?_⟩
  · rw [he]
    simp only [calculate_work_time, hust, huen]
    rfl
  · unfold end_work_session
    simp only [hst]
    cases hcc : s.current_break with
    | none =>
      dsimp only
    | some bp =>
      dsimp only
      have hopen : bp.end_time = none := hcb bp hcc
      have hact : bp.is_active = true := by
        simp [BreakPeriod.is_active, hopen]
      rw [if_pos hact]
      rw [end_break_spec _ t bp rfl hopen]

/-- C4 (witness): the amended statement for the session opened at 0 and shut
down at 600. -/
theorem C4_witness :
    ((activeAt0.handle_system_event EventType.shutdown 600).2).isSome = true ∧
    ((activeAt0.handle_system_event EventType.shutdown 600).1).session_start =
      some 0 ∧
    ((activeAt0.handle_system_event EventType.shutdown 600).1).session_end =
      some 600 ∧
    ((activeAt0.handle_system_event EventType.shutdown 600).1).current_break =
      none :=
  C4_shutdown_no_reset activeAt0 0 600 rfl
    (fun bp h => by rw [show activeAt0.current_break = none from rfl] at h; cases h)

end TimeTrace

namespace TimeTrace

open EnhancedWorkTimeCalculator

/-- C5 (counterexample): the state-machine-respecting sequence Startup at 0,
Shutdown at 50400 s (a 14-hour session, standard mode, default rules) yields
a summary with workMinutes = 720 (the 12-hour daily cap), breakMinutes = 0,
sessionMinutes = 840: workMinutes + breakMinutes differs from sessionMinutes
by 120 minutes, far beyond whole-minute rounding. -/
theorem C5_counterexample :
    ((runCalc initStd [(EventType.startup, 0), (EventType.shutdown, 50400)]).2.map
      fun w => (w.work_minutes, w.total_break_minutes, w.total_session_minutes)) =
    [(720, 0, 840)] := by
  simp [runCalc, handle_system_event, start_work_session, end_work_session,
    calculate_work_time, BreakPeriod.is_active, totalBreakMinutes,
    BreakPeriod.duration_minutes, sessionMinutesQ, applyWorkModeRules, defaultRules,
    qtrunc, calcEfficiency, initStd, EnhancedWorkTimeCalculator.init]
  norm_num

/-- C5 (amended): for every event sequence with nondecreasing timestamps
processed from a fresh calculator (any mode, nonnegative max-daily-hours
rule), every summary produced at a session close has workMinutes ≥ 0, and
workMinutes + breakMinutes equals sessionMinutes exactly (in the truncated
whole-minute values) UNLESS the standard-mode daily cap binds, in which case
workMinutes equals the floor of the cap and
workMinutes + breakMinutes ≤ sessionMinutes. -/
theorem C5_work_break_accounting (mode : WorkMode) (rules : WorkTimeRule)
    (hr : 0 ≤ rules.max_daily_hours) (es : List (EventType × ℤ)) (hc : Chain es) :
    ∀ w ∈ (runCalc (EnhancedWorkTimeCalculator.init mode rules) es).2,
      SummaryOK rules w := by
  cases es with
  | nil =>
    intro w hw
    simp [runCalc] at hw
  | cons e rest =>
    obtain ⟨ev, te⟩ := e
    have hc2 : ChainLB te rest := hc
    exact runCalc_good ((ev, te) :: rest) (EnhancedWorkTimeCalculator.init mode rules)
      (good_init te mode rules) ⟨le_refl te, hc2⟩ hr

/-- C5 (witness): the accounting statement instantiated on the concrete trace
Startup at 0, Shutdown at 600 (10-minute session, standard mode, default
rules), whose summary is `shortSummary`. -/
theorem C5_witness : SummaryOK defaultRules shortSummary := by
  have hmem :
      (runCalc (EnhancedWorkTimeCalculator.init WorkMode.standard defaultRules)
        [(EventType.startup, 0), (EventType.shutdown, 600)]).2 =
      [shortSummary] := by
    simp [runCalc, handle_system_event, start_work_session, end_work_session,
      calculate_work_time, BreakPeriod.is_active, totalBreakMinutes,
      BreakPeriod.duration_minutes, sessionMinutesQ, applyWorkModeRules, defaultRules,
      qtrunc, calcEfficiency, EnhancedWorkTimeCalculator.init, shortSummary]
    norm_num [WorkSummary.mk.injEq]
  exact C5_work_break_accounting WorkMode.standard defaultRules
    (by norm_num [defaultRules]) [(EventType.startup, 0), (EventType.shutdown, 600)]
    (by simp [Chain, ChainLB])
    _ (by rw [hmem]; exact List.mem_singleton_self _)

/-- C6 (confirmed): after any envelope trace from a fresh filter state, a
further envelope whose kind has a configured minimum interval is accepted iff
its kind is enabled AND (no envelope of that kind was accepted before, OR the
elapsed seconds since the last accepted envelope of that kind reach the
configured minimum); and concretely, the same Lock envelope fed twice through
the default filter yields exactly one acceptance, while two Lock envelopes
120 s apart (5 s minimum) are both accepted. -/
theorem C6_filter_acceptance (f0 : EventFilter)
    (h0 : ∀ k, f0.last_event_time k = none)
    (es : List SystemEventData) (e : SystemEventData) (m : ℚ)
    (hm : f0.min_interval e.event_type = some m) :
    (((runFilter f0 es).1.should_process e).1 = true ↔
      f0.enabled_events e.event_type = true ∧
      priorOk m e.event_time (lastAccepted f0 e.event_type es)) ∧
    (runFilter defaultFilter [lockEnvelope 0, lockEnvelope 0]).2 = [true, false] ∧
    (runFilter defaultFilter [lockEnvelope 0, lockEnvelope 120]).2 = [true, true] := by
  refine ⟨?_, ?_, ?_⟩
  · have hmf : (runFilter f0 es).1.min_interval e.event_type = some m := by
      rw [runFilter_min]
      exact hm
    rw [sp_true_iff _ _ m hmf, runFilter_enabled, runFilter_last, h0 e.event_type]
    cases hA : lastAccepted f0 e.event_type es <;> simp [priorOk]
  · norm_num [runFilter, EventFilter.should_process, defaultFilter, lockEnvelope]
  · norm_num [runFilter, EventFilter.should_process, defaultFilter, lockEnvelope]

/-- C6 (witness): the acceptance characterization instantiated at the default
filter, the empty trace and a Lock envelope at time 0. -/
theorem C6_witness :
    (((runFilter defaultFilter []).1.should_process (lockEnvelope 0)).1 = true ↔
      defaultFilter.enabled_events EventType.lock = true ∧
      priorOk 5 0 (lastAccepted defaultFilter EventType.lock [])) ∧
    (runFilter defaultFilter [lockEnvelope 0, lockEnvelope 0]).2 = [true, false] ∧
    (runFilter defaultFilter [lockEnvelope 0, lockEnvelope 120]).2 = [true, true] :=
  C6_filter_acceptance defaultFilter (fun _ => rfl) [] (lockEnvelope 0) 5 rfl

/-- C7 (counterexample): pushing onto a queue at capacity returns a state
EQUAL to the input state — the envelope is dropped but, the `EventQueue`
having no drop-counter field, nothing is incremented, contradicting the
claimed counter increase. -/
theorem C7_counterexample :
    EventQueue.put fullQueue3 (lockEnvelope 4) = fullQueue3 ∧
    (EventQueue.put fullQueue3 (lockEnvelope 4)).items.length = 3 := by
  constructor <;> rfl

/-- C7 (amended): every push onto a queue at capacity drops the pushed
envelope and only logs a warning; the queue state is unchanged (there is no
drop counter to increment).  In particular pushing any number of overflow
envelopes — e.g. 5 — onto a full queue drops exactly those envelopes and
leaves the queue holding its original contents. -/
theorem C7_queue_overflow_drop (q : EventQueue) (es : List SystemEventData)
    (h : q.items.length = q.max_size) :
    EventQueue.putAll q es = q := by
  induction es with
  | nil => rfl
  | cons e rest ih =>
    have hput : EventQueue.put q e = q := by
      rw [EventQueue.put, if_neg (by omega)]
    simp only [EventQueue.putAll, List.foldl_cons, hput]
    exact ih

/-- C7 (witness): five overflow pushes onto the full capacity-3 queue leave
it unchanged. -/
theorem C7_witness :
    EventQueue.putAll fullQueue3
      [lockEnvelope 4, lockEnvelope 5, lockEnvelope 6, lockEnvelope 7,
       lockEnvelope 8] = fullQueue3 :=
  C7_queue_overflow_drop fullQueue3 _ rfl

/-- C8 (counterexample): with a session open since 100, a Lock envelope at 50
(before the session start) is NOT rejected: it opens a SystemLock break
starting at 50, visibly changing the session state, contradicting the claimed
no-op rejection of late envelopes. -/
theorem C8_counterexample :
    openAt100.session_start = some 100 ∧
    openAt100.break_periods = [] ∧
    ((openAt100.handle_system_event EventType.lock 50).1).break_periods =
      [{ start_time := 50, end_time := none, break_type := BreakType.system }] ∧
    ((openAt100.handle_system_event EventType.lock 50).1).current_break =
      some { start_time := 50, end_time := none, break_type := BreakType.system } := by
  refine ⟨?_, ?_, ?_, ?_⟩ <;> rfl

/-- C8 (amended): the calculator performs no timestamp validation: an
envelope whose timestamp precedes the session start is processed by the
ordinary transition rules — a Lock earlier than the session start still opens
a SystemLock break at that earlier time — rather than being rejected as a
no-op. -/
theorem C8_no_timestamp_validation (s : EnhancedWorkTimeCalculator) (st t : ℤ)
    (hst : s.session_start = some st) (hlate : t < st) :
    s.handle_system_event EventType.lock t =
      (s.start_break t BreakType.system, none) ∧
    (s.start_break t BreakType.system).current_break =
      some { start_time := t, end_time := none, break_type := BreakType.system } :=
  ⟨rfl, rfl⟩

/-- C8 (witness): the late Lock at 50 against the session opened at 100. -/
theorem C8_witness :
    openAt100.handle_system_event EventType.lock 50 =
      (openAt100.start_break 50 BreakType.system, none) ∧
    (openAt100.start_break 50 BreakType.system).current_break =
      some { start_time := 50, end_time := none, break_type := BreakType.system } :=
  C8_no_timestamp_validation openAt100 100 50 rfl (by norm_num)

/-- C9 (confirmed): Scenario A — Startup 09:00, Lock 12:00, Unlock 13:00,
Shutdown 18:00 (in seconds of day), standard mode with the default 8-hour
threshold — produces exactly one summary with workMinutes = 480,
breakMinutes = 60, overtimeMinutes = 0. -/
theorem C9_scenario_a :
    ((runCalc initStd scenarioA).2.map
      fun w => (w.work_minutes, w.total_break_minutes, w.overtime_minutes)) =
    [(480, 60, 0)] := by
  simp [scenarioA, runCalc, handle_system_event, start_work_session, start_break,
    end_break, end_work_session, calculate_work_time, BreakPeriod.is_active,
    totalBreakMinutes, BreakPeriod.duration_minutes, sessionMinutesQ,
    applyWorkModeRules, defaultRules, qtrunc, calcEfficiency, initStd,
    EnhancedWorkTimeCalculator.init]
  have h60 : Int.tdiv 3600 60 = 60 := by decide
  rw [h60]
  norm_num [min_def, max_def]

/-- C10 (confirmed): every summary handed off at a session close carries an
efficiency ratio in [0, 1], regardless of the break list: it is 0 when the
rational session minutes are ≤ 0, and otherwise it is the work minutes
divided by the session minutes, clamped from above at 1. -/
theorem C10_efficiency_bounds (s : EnhancedWorkTimeCalculator) (st t : ℤ)
    (w : WorkSummary)
    (hr : 0 ≤ s.rules.max_daily_hours)
    (hst : s.session_start = some st)
    (hw : (s.end_work_session t).2 = some w) :
    (0 ≤ w.efficiency ∧ w.efficiency ≤ 1) ∧
    (sessionMinutesQ st t ≤ 0 → w.efficiency = 0) ∧
    (0 < sessionMinutesQ st t →
      w.efficiency = min 1 (applyWorkModeRules s.work_mode s.rules
        (max 0 (sessionMinutesQ st t -
          (totalBreakMinutes ((s.end_work_session t).1).break_periods : ℚ))) /
        sessionMinutesQ st t)) := by
  obtain ⟨he, hust, huen⟩ := end_work_session_spec s t st hst
  rw [he] at hw
  obtain ⟨hrw1, hrw2⟩ := end_work_session_rules s t
  simp only [EnhancedWorkTimeCalculator.calculate_work_time, hust, huen,
    Option.some.injEq] at hw
  subst hw
  simp only
  have hw0 : 0 ≤ applyWorkModeRules (s.end_work_session t).1.work_mode
      (s.end_work_session t).1.rules
      (max 0 (sessionMinutesQ st t -
        (totalBreakMinutes ((s.end_work_session t).1).break_periods : ℚ))) := by
    apply applyWorkModeRules_nonneg
    · rw [hrw1]
      exact hr
    · exact le_max_left _ _
  refine ⟨calcEfficiency_bounds _ _ hw0, ?_, ?_⟩
  · intro hle
    simp [calcEfficiency, hle]
  · intro hpos
    rw [calcEfficiency, if_neg (not_le.2 hpos), hrw1, hrw2]

/-- C10 (witness): the bounds at the 10-minute session opened at 0 and closed
at 600 seconds, whose summary is `shortSummary` with efficiency 1. -/
theorem C10_witness :
    (0 ≤ shortSummary.efficiency ∧ shortSummary.efficiency ≤ 1) ∧
    (sessionMinutesQ 0 600 ≤ 0 → shortSummary.efficiency = 0) ∧
    (0 < sessionMinutesQ 0 600 →
      shortSummary.efficiency = min 1 (applyWorkModeRules activeAt0.work_mode
        activeAt0.rules
        (max 0 (sessionMinutesQ 0 600 -
          (totalBreakMinutes ((activeAt0.end_work_session 600).1).break_periods : ℚ))) /
        sessionMinutesQ 0 600)) :=
  C10_efficiency_bounds activeAt0 0 600 shortSummary
    (by show (0:ℚ) ≤ (12:ℚ); norm_num) rfl
    (by simp [activeAt0, initStd, runCalc, EnhancedWorkTimeCalculator.init,
          handle_system_event, start_work_session, end_work_session,
          calculate_work_time, BreakPeriod.is_active, totalBreakMinutes,
          BreakPeriod.duration_minutes, sessionMinutesQ, applyWorkModeRules,
          defaultRules, qtrunc, calcEfficiency, shortSummary]
        norm_num [min_def, max_def])

end TimeTrace
